import Mathlib

/-!
Shallow embedding of the virtual-fido authenticator core: the U2F
application layer (`src/virtual_fido/u2f.go`) and the USB device layer
(`src/usb/usb_device.go`).  Bytes are `Nat`s (with explicit `% 256` where
the Go code truncates), byte strings are `List Nat`, fallible or panicking
Go paths are `Option` (`none` models a runtime panic / fatal abort).
Cryptographic primitives and CBOR serialization live outside `src/` and are
modelled from the specification, as documented on each definition.
-/

/-- Big-endian bytes of a 16-bit value (models `util.ToBE` on `uint16`). -/
def toBE16 (n : Nat) : List Nat := [n / 256 % 256, n % 256]

/-- Big-endian bytes of a 32-bit value (models `util.ToBE` on `uint32`). -/
def toBE32 (n : Nat) : List Nat :=
  [n / 16777216 % 256, n / 65536 % 256, n / 256 % 256, n % 256]

/-- Little-endian bytes of a 16-bit value (models `util.ToLE` on `uint16`). -/
def toLE16 (n : Nat) : List Nat := [n % 256, n / 256 % 256]

/-- Big-endian fixed-width byte string of a natural number; `beBytes n v`
has exactly `n` bytes, most significant first. -/
def beBytes : Nat → Nat → List Nat
  | 0, _ => []
  | n + 1, v => beBytes n (v / 256) ++ [v % 256]

/-! ## CBOR byte strings

`sealKeyHandle` / `openKeyHandle` (u2f.go lines 120-138) serialize through
`util.MarshalCBOR` / `cbor.Unmarshal`, which are not under `src/`.
Modelled from the spec: §4.4 requires canonical CBOR with integer keys, so
byte strings use CBOR major type 2 with the shortest length header, `nil`
byte slices encode as CBOR null (`0xF6`), and maps use integer keys in
order.  The decoders accept exactly the canonical forms the encoders emit
and fail (`none`) on anything else, matching `cbor.Unmarshal` returning an
error. -/

/-- Canonical CBOR header for a byte string of length `n` (major type 2). -/
def bstrHeader (n : Nat) : List Nat :=
  if n < 24 then [64 + n]
  else if n < 256 then [88, n]
  else [89, n / 256, n % 256]

/-- CBOR encoding of a byte string: header followed by the raw bytes. -/
def encodeBstr (l : List Nat) : List Nat := bstrHeader l.length ++ l

/-- Read one CBOR byte string from the front of `bytes`, returning it and
the remaining bytes; `none` on a malformed header or truncated input. -/
def readBstr (bytes : List Nat) : Option (List Nat × List Nat) :=
  match bytes with
  | [] => none
  | b :: rest =>
    if 64 ≤ b ∧ b < 88 then
      let n := b - 64
      if n ≤ rest.length then some (rest.take n, rest.drop n) else none
    else if b = 88 then
      match rest with
      | n :: rest2 => if n ≤ rest2.length then some (rest2.take n, rest2.drop n) else none
      | [] => none
    else if b = 89 then
      match rest with
      | hi :: lo :: rest2 =>
        let n := hi * 256 + lo
        if n ≤ rest2.length then some (rest2.take n, rest2.drop n) else none
      | _ => none
    else none

/-- CBOR encoding of a nilable byte string: Go `nil` slices encode as CBOR
null (`0xF6`), non-nil slices as a byte string. -/
def encodeBstrOpt : Option (List Nat) → List Nat
  | none => [246]
  | some l => encodeBstr l

/-- Read one CBOR null-or-byte-string value from the front of `bytes`. -/
def readBstrOpt (bytes : List Nat) : Option (Option (List Nat) × List Nat) :=
  match bytes with
  | [] => none
  | b :: rest =>
    if b = 246 then some (none, rest)
    else (readBstr (b :: rest)).map fun p => (some p.1, p.2)

/-! ## KeyHandle and the sealed envelope -/

/-- `KeyHandle` from u2f.go lines 115-118.  Go byte slices are nilable, and
`handleU2FAuthenticate` tests `PrivateKey == nil`, so both fields are
`Option (List Nat)` with `none` for a `nil` slice. -/
structure KeyHandle where
  privateKey : Option (List Nat)
  applicationID : Option (List Nat)
deriving DecidableEq, Repr

/-- Modelled from the spec: the sealed envelope produced by the sealing key
(`encryptedBox` in the Go code, outside `src/`); §4.4 gives its shape as
`\x7bnonce, ciphertext, tag\x7d`. -/
structure EncryptedBox where
  nonce : List Nat
  ciphertext : List Nat
  tag : List Nat
deriving DecidableEq, Repr

/-- Modelled from the spec: the authenticated-encryption scheme behind
`seal` / `open` (crypto code outside `src/`).  §4.4 fixes only its shape:
encryption of a plaintext under a key and a fresh nonce yields a
`\x7bnonce, ciphertext, tag\x7d` envelope, and decryption either recovers the
plaintext or fails (authentication failure). -/
structure AEAD where
  encrypt : List Nat → List Nat → List Nat → EncryptedBox
  decrypt : List Nat → EncryptedBox → Option (List Nat)

/-- Modelled from the spec: the crypto primitives the U2F layer calls that
live outside `src/` — the AEAD behind `seal`/`open`, x509 private-key
marshalling/parsing, and ECDSA-SHA256 signing (§4.3, §4.4).  They are kept
abstract as record fields; theorems about them quantify over all
instantiations. -/
structure CryptoParams where
  aead : AEAD
  marshalECPrivateKey : Nat → Option (List Nat)
  parseECPrivateKey : List Nat → Option Nat
  sign : Nat → List Nat → List Nat

/-- `FIDOClient` operations consumed by u2f.go, per §4.5 of the spec.  The
effectful Go interface is embedded as a record of the values each call
returns in the run under consideration: in particular
`newAuthenticationCounterId` is the counter value the client port hands
out, and `sealingNonce` is the fresh nonce drawn inside `seal`.  The fresh
private key is an abstract handle (`Nat`) together with its public-key
coordinates. -/
structure FIDOClient where
  sealingEncryptionKey : List Nat
  sealingNonce : List Nat
  newPrivateKey : Nat
  publicKeyX : Nat
  publicKeyY : Nat
  approveU2FRegistration : KeyHandle → Bool
  approveU2FAuthentication : KeyHandle → Bool
  newAuthenticationCounterId : Nat
  createAttestationCertificate : Nat → List Nat

/-- CBOR encoding of a `KeyHandle` (models `util.MarshalCBOR` on the struct
with tags `1,keyasint` / `2,keyasint`): a two-entry map with integer keys
1 and 2. -/
def marshalKeyHandle (h : KeyHandle) : List Nat :=
  162 :: 1 :: (encodeBstrOpt h.privateKey ++ 2 :: encodeBstrOpt h.applicationID)

/-- CBOR decoding of a `KeyHandle` (models `cbor.Unmarshal`); accepts the
canonical form `marshalKeyHandle` emits and fails on anything else. -/
def unmarshalKeyHandle (bytes : List Nat) : Option KeyHandle :=
  match bytes with
  | b0 :: b1 :: rest =>
    if b0 = 162 ∧ b1 = 1 then
      match readBstrOpt rest with
      | some (pk, rest2) =>
        match rest2 with
        | b2 :: rest3 =>
          if b2 = 2 then
            match readBstrOpt rest3 with
            | some (app, rest4) => if rest4 = [] then some ⟨pk, app⟩ else none
            | none => none
          else none
        | [] => none
      | none => none
    else none
  | _ => none

/-- CBOR encoding of the sealed envelope (the second `util.MarshalCBOR` in
`sealKeyHandle`): a three-entry map with integer keys 1, 2, 3. -/
def marshalBox (box : EncryptedBox) : List Nat :=
  163 :: 1 :: (encodeBstr box.nonce ++ 2 :: (encodeBstr box.ciphertext ++ 3 :: encodeBstr box.tag))

/-- CBOR decoding of the sealed envelope (the first `cbor.Unmarshal` in
`openKeyHandle`). -/
def unmarshalBox (bytes : List Nat) : Option EncryptedBox :=
  match bytes with
  | b0 :: b1 :: rest =>
    if b0 = 163 ∧ b1 = 1 then
      match readBstr rest with
      | some (nonceVal, rest2) =>
        match rest2 with
        | b2 :: rest3 =>
          if b2 = 2 then
            match readBstr rest3 with
            | some (ct, rest4) =>
              match rest4 with
              | b3 :: rest5 =>
                if b3 = 3 then
                  match readBstr rest5 with
                  | some (tg, rest6) => if rest6 = [] then some ⟨nonceVal, ct, tg⟩ else none
                  | none => none
                else none
              | [] => none
            | none => none
          else none
        | [] => none
      | none => none
    else none
  | _ => none

/-- `sealKeyHandle` (u2f.go lines 120-123): CBOR-encode the handle, seal it
under the client's sealing key (with the fresh nonce the client run
provides), CBOR-encode the envelope. -/
def sealKeyHandle (crypto : CryptoParams) (client : FIDOClient) (keyHandle : KeyHandle) : List Nat :=
  marshalBox (crypto.aead.encrypt client.sealingEncryptionKey client.sealingNonce
    (marshalKeyHandle keyHandle))

/-- `openKeyHandle` (u2f.go lines 125-138): CBOR-decode the envelope,
decrypt it under the sealing key, CBOR-decode the plaintext.  Modelled from
the spec: the inner `open` is outside `src/`; per §4.4 opening fails when
authentication fails, and the failure surfaces as this function's error
(`none`). -/
def openKeyHandle (crypto : CryptoParams) (client : FIDOClient) (boxBytes : List Nat) : Option KeyHandle :=
  match unmarshalBox boxBytes with
  | none => none
  | some box =>
    match crypto.aead.decrypt client.sealingEncryptionKey box with
    | none => none
    | some data => unmarshalKeyHandle data

/-! ## U2F application layer (u2f.go) -/

/-- Status word `u2f_SW_NO_ERROR` (u2f.go line 32). -/
def u2f_SW_NO_ERROR : Nat := 0x9000

/-- Status word `u2f_SW_CONDITIONS_NOT_SATISFIED` (u2f.go line 33). -/
def u2f_SW_CONDITIONS_NOT_SATISFIED : Nat := 0x6985

/-- Status word `u2f_SW_WRONG_DATA` (u2f.go line 34). -/
def u2f_SW_WRONG_DATA : Nat := 0x6A80

/-- Status word `u2f_SW_WRONG_LENGTH` (u2f.go line 35). -/
def u2f_SW_WRONG_LENGTH : Nat := 0x6700

/-- `u2fMessageHeader` (u2f.go lines 48-53): the four header bytes of a U2F
APDU, read big-endian in field order by `util.ReadBE`. -/
structure u2fMessageHeader where
  cla : Nat
  command : Nat
  param1 : Nat
  param2 : Nat
deriving DecidableEq, Repr

/-- Modelled from the spec: `elliptic.Marshal` on the fresh P-256 public
key (outside `src/`); §4.3 fixes the SEC1 uncompressed encoding
`0x04 ‖ X[32] ‖ Y[32]`. -/
def marshalP256PublicKey (client : FIDOClient) : List Nat :=
  4 :: (beBytes 32 client.publicKeyX ++ beBytes 32 client.publicKeyY)

/-- `handleU2FRegister` (u2f.go lines 140-165).  `none` models a runtime
abort: slicing `request[:32]` out of range when the payload is shorter
than 32 bytes, a failed `util.Assert` on the challenge/application
lengths (`util.Assert` is outside `src/`; a call whose value is discarded
can only influence execution by aborting, which is how §7 treats internal
inconsistencies), or `util.CheckErr` on a private key that cannot be
x509-encoded.  The handle-length byte is the Go `uint8` truncation
`len(keyHandle) % 256`. -/
def handleU2FRegister (crypto : CryptoParams) (client : FIDOClient)
    (header : u2fMessageHeader) (request : List Nat) : Option (List Nat) :=
  if request.length < 32 then none
  else
    let challenge := request.take 32
    let application := request.drop 32
    if challenge.length ≠ 32 then none
    else if application.length ≠ 32 then none
    else
      let encodedPublicKey := marshalP256PublicKey client
      match crypto.marshalECPrivateKey client.newPrivateKey with
      | none => none
      | some encodedPrivateKey =>
        let unencryptedKeyHandle : KeyHandle := ⟨some encodedPrivateKey, some application⟩
        let keyHandle := sealKeyHandle crypto client unencryptedKeyHandle
        if client.approveU2FRegistration unencryptedKeyHandle = false then
          some (toBE16 u2f_SW_CONDITIONS_NOT_SATISFIED)
        else
          let cert := client.createAttestationCertificate client.newPrivateKey
          let signatureDataBytes := 0 :: (application ++ challenge ++ keyHandle ++ encodedPublicKey)
          let signature := crypto.sign client.newPrivateKey signatureDataBytes
          some (5 :: (encodedPublicKey ++ keyHandle.length % 256 :: (keyHandle ++ cert ++ signature ++ toBE16 u2f_SW_NO_ERROR)))

/-- `handleU2FAuthenticate` (u2f.go lines 167-203).  The request reader
(`util.Read` / `util.ReadLE`, outside `src/`) is modelled from the spec's
request layout `challenge[32] ‖ application[32] ‖ handle_len(1) ‖
handle_bytes[handle_len]` (§4.3): a request too short for the reads
aborts (`none`).  `none` also models the `util.CheckErr` abort when the
recovered private key cannot be parsed. -/
def handleU2FAuthenticate (crypto : CryptoParams) (client : FIDOClient)
    (header : u2fMessageHeader) (request : List Nat) : Option (List Nat) :=
  let control := header.param1
  if request.length < 65 then none
  else
    let challenge := request.take 32
    let application := (request.drop 32).take 32
    let keyHandleLength := (request.drop 64).headD 0
    let afterLen := request.drop 65
    if afterLen.length < keyHandleLength then none
    else
      let encryptedKeyHandleBytes := afterLen.take keyHandleLength
      match openKeyHandle crypto client encryptedKeyHandleBytes with
      | none => some (toBE16 u2f_SW_WRONG_DATA)
      | some keyHandle =>
        if keyHandle.privateKey = none ∨ keyHandle.applicationID.getD [] ≠ application then
          some (toBE16 u2f_SW_WRONG_DATA)
        else
          match crypto.parseECPrivateKey (keyHandle.privateKey.getD []) with
          | none => none
          | some privateKey =>
            if control = 7 then some (toBE16 u2f_SW_CONDITIONS_NOT_SATISFIED)
            else if control = 3 ∨ control = 8 then
              if control = 3 ∧ client.approveU2FAuthentication keyHandle = false then
                some (toBE16 u2f_SW_CONDITIONS_NOT_SATISFIED)
              else
                let counter := client.newAuthenticationCounterId
                let signatureDataBytes := application ++ 1 :: (toBE32 counter ++ challenge)
                let signature := crypto.sign privateKey signatureDataBytes
                some (1 :: (toBE32 counter ++ signature ++ toBE16 u2f_SW_NO_ERROR))
            else some (toBE16 u2f_SW_WRONG_LENGTH)

/-- The length/payload tail of `decodeU2FMessage` (u2f.go lines 74-94):
everything after the 4 header bytes.  Returns the request payload and the
response length; `none` models the explicit `panic` on a non-zero marker
byte and the aborts of `util.ReadBE`/`util.Read` on a truncated buffer. -/
def parseTail (tail : List Nat) : Option (List Nat × Nat) :=
  match tail with
  | [] => some ([], 0)
  | b :: rest =>
    if b ≠ 0 then none
    else
      match rest with
      | hi :: lo :: rest2 =>
        let len := hi * 256 + lo
        if rest2 = [] then some ([], len)
        else if rest2.length < len then none
        else
          let request := rest2.take len
          match rest2.drop len with
          | [] => some (request, 0)
          | [_] => none
          | h2 :: l2 :: _ => some (request, h2 * 256 + l2)
      | _ => none

/-- `decodeU2FMessage` (u2f.go lines 71-95): big-endian header read
followed by the tail parse; fewer than 4 bytes aborts the header read. -/
def decodeU2FMessage (messageBytes : List Nat) : Option (u2fMessageHeader × List Nat × Nat) :=
  match messageBytes with
  | cla :: ins :: p1 :: p2 :: rest =>
    (parseTail rest).map fun p => (⟨cla, ins, p1, p2⟩, p.1, p.2)
  | _ => none

/-- `handleU2FMessage` (u2f.go lines 97-113): dispatch on the command
byte; VERSION answers `"U2F_V2" ‖ 0x9000`, unknown commands hit the
`panic` in the default case (`none`). -/
def handleU2FMessage (crypto : CryptoParams) (client : FIDOClient) (message : List Nat) : Option (List Nat) :=
  match decodeU2FMessage message with
  | none => none
  | some (header, request, _) =>
    if header.command = 3 then some ([85, 50, 70, 95, 86, 50] ++ toBE16 u2f_SW_NO_ERROR)
    else if header.command = 1 then handleU2FRegister crypto client header request
    else if header.command = 2 then handleU2FAuthenticate crypto client header request
    else none

/-! ## USB device layer (usb_device.go)

The descriptor struct types and `util.ToLE` live outside `src/`; the field
lists, packing (packed little-endian) and sizes (9/9/9/7/7 bytes) are
modelled from §3 of the spec, while every field value below is taken from
usb_device.go. -/

/-- `getHIDReport` (usb_device.go lines 250-253), byte for byte. -/
def getHIDReport : List Nat :=
  [6, 208, 241, 9, 1, 161, 1, 9, 32, 20, 37, 255, 117, 8, 149, 64, 129, 2,
   9, 33, 20, 37, 255, 117, 8, 149, 64, 145, 2, 192]

/-- `usbConfigurationDescriptor` fields (order per §3; values filled by
`getConfigurationDescriptor`). -/
structure usbConfigurationDescriptor where
  bLength : Nat
  bDescriptorType : Nat
  wTotalLength : Nat
  bNumInterfaces : Nat
  bConfigurationValue : Nat
  iConfiguration : Nat
  bmAttributes : Nat
  bMaxPower : Nat
deriving DecidableEq, Repr

/-- `usbInterfaceDescriptor` fields. -/
structure usbInterfaceDescriptor where
  bLength : Nat
  bDescriptorType : Nat
  bInterfaceNumber : Nat
  bAlternateSetting : Nat
  bNumEndpoints : Nat
  bInterfaceClass : Nat
  bInterfaceSubclass : Nat
  bInterfaceProtocol : Nat
  iInterface : Nat
deriving DecidableEq, Repr

/-- `usbHIDDescriptor` fields. -/
structure usbHIDDescriptor where
  bLength : Nat
  bDescriptorType : Nat
  bcdHID : Nat
  bCountryCode : Nat
  bNumDescriptors : Nat
  bClassDescriptorType : Nat
  wReportDescriptorLength : Nat
deriving DecidableEq, Repr

/-- `usbEndpointDescriptor` fields. -/
structure usbEndpointDescriptor where
  bLength : Nat
  bDescriptorType : Nat
  bEndpointAddress : Nat
  bmAttributes : Nat
  wMaxPacketSize : Nat
  bInterval : Nat
deriving DecidableEq, Repr

/-- Modelled from the spec: `util.ToLE` packing of the 9-byte
configuration descriptor (§3: packed little-endian, `wTotalLength` is the
only 16-bit field). -/
def configurationDescriptorBytes (d : usbConfigurationDescriptor) : List Nat :=
  [d.bLength % 256, d.bDescriptorType % 256] ++ toLE16 d.wTotalLength ++
    [d.bNumInterfaces % 256, d.bConfigurationValue % 256, d.iConfiguration % 256,
     d.bmAttributes % 256, d.bMaxPower % 256]

/-- Modelled from the spec: `util.ToLE` packing of the 9-byte interface
descriptor (all fields single bytes). -/
def interfaceDescriptorBytes (d : usbInterfaceDescriptor) : List Nat :=
  [d.bLength % 256, d.bDescriptorType % 256, d.bInterfaceNumber % 256,
   d.bAlternateSetting % 256, d.bNumEndpoints % 256, d.bInterfaceClass % 256,
   d.bInterfaceSubclass % 256, d.bInterfaceProtocol % 256, d.iInterface % 256]

/-- Modelled from the spec: `util.ToLE` packing of the 9-byte HID
descriptor (`bcdHID` and `wReportDescriptorLength` are 16-bit). -/
def hidDescriptorBytes (d : usbHIDDescriptor) : List Nat :=
  [d.bLength % 256, d.bDescriptorType % 256] ++ toLE16 d.bcdHID ++
    [d.bCountryCode % 256, d.bNumDescriptors % 256, d.bClassDescriptorType % 256] ++
    toLE16 d.wReportDescriptorLength

/-- Modelled from the spec: `util.ToLE` packing of the 7-byte endpoint
descriptor (`wMaxPacketSize` is 16-bit). -/
def endpointDescriptorBytes (d : usbEndpointDescriptor) : List Nat :=
  [d.bLength % 256, d.bDescriptorType % 256, d.bEndpointAddress % 256,
   d.bmAttributes % 256] ++ toLE16 d.wMaxPacketSize ++ [d.bInterval % 256]

/-- `usbConfigAttributeBase` (constant outside `src/`; standard USB
bmAttributes bit 7). -/
def usbConfigAttributeBase : Nat := 128

/-- `usbConfigAttributeSelfPowered` (constant outside `src/`; standard USB
bmAttributes bit 6). -/
def usbConfigAttributeSelfPowered : Nat := 64

/-- `getConfigurationDescriptor` (usb_device.go lines 210-222):
`wTotalLength` is the descriptor's own 9 bytes plus the trailing block,
as a Go `uint16` sum. -/
def getConfigurationDescriptor (configLength : Nat) : usbConfigurationDescriptor :=
  { bLength := 9
    bDescriptorType := 2
    wTotalLength := (9 + configLength) % 65536
    bNumInterfaces := 1
    bConfigurationValue := 0
    iConfiguration := 4
    bmAttributes := usbConfigAttributeBase + usbConfigAttributeSelfPowered
    bMaxPower := 0 }

/-- `getInterfaceDescriptor` (usb_device.go lines 224-236). -/
def getInterfaceDescriptor : usbInterfaceDescriptor :=
  { bLength := 9
    bDescriptorType := 4
    bInterfaceNumber := 0
    bAlternateSetting := 0
    bNumEndpoints := 2
    bInterfaceClass := 3
    bInterfaceSubclass := 0
    bInterfaceProtocol := 0
    iInterface := 5 }

/-- `getHIDDescriptor` (usb_device.go lines 238-248): the report length
field is the length of the HID report map passed in, as a Go `uint16`. -/
def getHIDDescriptor (hidReportDescriptor : List Nat) : usbHIDDescriptor :=
  { bLength := 9
    bDescriptorType := 33
    bcdHID := 257
    bCountryCode := 0
    bNumDescriptors := 1
    bClassDescriptorType := 34
    wReportDescriptorLength := hidReportDescriptor.length % 65536 }

/-- The EP1-IN interrupt endpoint descriptor (usb_device.go lines
258-265). -/
def endpointInDescriptor : usbEndpointDescriptor :=
  { bLength := 7
    bDescriptorType := 5
    bEndpointAddress := 129
    bmAttributes := 3
    wMaxPacketSize := 64
    bInterval := 255 }

/-- The EP2-OUT interrupt endpoint descriptor (usb_device.go lines
266-273). -/
def endpointOutDescriptor : usbEndpointDescriptor :=
  { bLength := 7
    bDescriptorType := 5
    bEndpointAddress := 2
    bmAttributes := 3
    wMaxPacketSize := 64
    bInterval := 255 }

/-- `getEndpointDescriptors` (usb_device.go lines 255-275): EP1-IN then
EP2-OUT. -/
def getEndpointDescriptors : List usbEndpointDescriptor :=
  [endpointInDescriptor, endpointOutDescriptor]

/-- The `usbDescriptorConfiguration` branch of `getDescriptor`
(usb_device.go lines 161-175): serialize interface, HID and endpoint
descriptors, then prepend the configuration descriptor computed from the
assembled length. -/
def getConfigurationDescriptorResponse : List Nat :=
  let configBytes :=
    interfaceDescriptorBytes getInterfaceDescriptor ++
    hidDescriptorBytes (getHIDDescriptor getHIDReport) ++
    (getEndpointDescriptors.map endpointDescriptorBytes).flatten
  configurationDescriptorBytes (getConfigurationDescriptor configBytes.length) ++ configBytes

/-- `usbSetupPacket` (§3, §4.2): the five little-endian fields of the
8-byte SETUP packet. -/
structure usbSetupPacket where
  bmRequestType : Nat
  bRequest : Nat
  wValue : Nat
  wIndex : Nat
  wLength : Nat
deriving DecidableEq, Repr

/-- `setup.recipient()` (§4.2): low five bits of `bmRequestType`. -/
def setupRecipient (setup : usbSetupPacket) : Nat := setup.bmRequestType % 32

/-- `getDescriptorTypeAndIndex` (§4.2): `wValue` splits as
`(type, index) = (high byte, low byte)`. -/
def getDescriptorTypeAndIndex (wValue : Nat) : Nat × Nat :=
  (wValue / 256 % 256, wValue % 256)

/-- `handleInterfaceRequest` (usb_device.go lines 131-152).  The outer
`Option` is `none` for the `util.Panic` branches; the inner value is the
reply (`none` for the Go `nil` reply of the no-op requests).  Request
codes (`usbHIDRequestSetIdle` 0x0A, `usbHIDRequestSetProtocol` 0x0B,
`usbHIDRequestGetDescriptor` 0x06) and the descriptor type byte 0x22 for
HID_REPORT are outside `src/`; they are the standard USB HID values, the
latter fixed by §3 of the spec. -/
def handleInterfaceRequest (setup : usbSetupPacket) : Option (Option (List Nat)) :=
  if setup.bRequest = 10 then some none
  else if setup.bRequest = 11 then some none
  else if setup.bRequest = 6 then
    if (getDescriptorTypeAndIndex setup.wValue).1 = 34 then some (some getHIDReport)
    else none
  else none

/-! ## Concrete instantiations used to evaluate witnesses -/

/-- A concrete AEAD satisfying the decrypt-of-encrypt law, used to
instantiate witnesses. -/
def testAEAD : AEAD where
  encrypt := fun _ n m => ⟨n, m, [0]⟩
  decrypt := fun _ box => if box.tag = [0] then some box.ciphertext else none

/-- Concrete crypto primitives for witnesses. -/
def testCrypto : CryptoParams where
  aead := testAEAD
  marshalECPrivateKey := fun k => some [k % 256]
  parseECPrivateKey := fun b => some (b.headD 0)
  sign := fun k m => [k % 256, m.length % 256]

/-- Concrete client-port run for witnesses. -/
def testClient : FIDOClient where
  sealingEncryptionKey := [1, 2, 3]
  sealingNonce := [9, 9]
  newPrivateKey := 7
  publicKeyX := 5
  publicKeyY := 6
  approveU2FRegistration := fun _ => true
  approveU2FAuthentication := fun _ => true
  newAuthenticationCounterId := 16
  createAttestationCertificate := fun _ => [222, 173]

/-! ## Helper lemmas -/

theorem beBytes_length (n v : Nat) : (beBytes n v).length = n := by
  induction n generalizing v with
  | zero => rfl
  | succ k ih => simp [beBytes, ih]

theorem readBstr_encode (l rest : List Nat) :
    readBstr (encodeBstr l ++ rest) = some (l, rest) := by
  unfold encodeBstr bstrHeader
  by_cases h24 : l.length < 24
  · simp only [if_pos h24, List.cons_append, List.nil_append, readBstr]
    have hb : 64 ≤ 64 + l.length ∧ 64 + l.length < 88 := by omega
    rw [if_pos hb]
    have hn : 64 + l.length - 64 = l.length := by omega
    simp [hn, List.take_left, List.drop_left]
  · by_cases h256 : l.length < 256
    · simp only [if_neg h24, if_pos h256, List.cons_append, List.nil_append, readBstr]
      have hb : ¬ (64 ≤ 88 ∧ 88 < 88) := by omega
      rw [if_neg hb]
      simp [List.take_left, List.drop_left]
    · simp only [if_neg h24, if_neg h256, List.cons_append, List.nil_append, readBstr]
      have hb : ¬ (64 ≤ 89 ∧ 89 < 88) := by omega
      rw [if_neg hb]
      have hn : l.length / 256 * 256 + l.length % 256 = l.length := by omega
      simp [hn, List.take_left, List.drop_left]

theorem bstrHeader_shape (n : Nat) : ∃ b t, bstrHeader n = b :: t ∧ b < 246 := by
  unfold bstrHeader
  by_cases h24 : n < 24
  · exact ⟨64 + n, [], by simp [h24], by omega⟩
  · by_cases h256 : n < 256
    · exact ⟨88, [n], by simp [h24, h256], by omega⟩
    · exact ⟨89, [n / 256, n % 256], by simp [h24, h256], by omega⟩

theorem readBstrOpt_encode (o : Option (List Nat)) (rest : List Nat) :
    readBstrOpt (encodeBstrOpt o ++ rest) = some (o, rest) := by
  cases o with
  | none => simp [encodeBstrOpt, readBstrOpt]
  | some l =>
    obtain ⟨b, t, hshape, hlt⟩ := bstrHeader_shape l.length
    have henc : encodeBstrOpt (some l) ++ rest = b :: (t ++ l ++ rest) := by
      simp [encodeBstrOpt, encodeBstr, hshape]
    rw [henc]
    have hb : b ≠ 246 := by omega
    have hread : readBstr (b :: (t ++ l ++ rest)) = some (l, rest) := by
      have : b :: (t ++ l ++ rest) = encodeBstr l ++ rest := by
        simp [encodeBstr, hshape]
      rw [this, readBstr_encode]
    simp only [readBstrOpt, if_neg hb]
    rw [hread]
    rfl

theorem unmarshalKeyHandle_marshalKeyHandle (h : KeyHandle) :
    unmarshalKeyHandle (marshalKeyHandle h) = some h := by
  obtain ⟨pk, app⟩ := h
  have h2 : readBstrOpt (encodeBstrOpt app) = some (app, []) := by
    simpa using readBstrOpt_encode app []
  simp [marshalKeyHandle, unmarshalKeyHandle, readBstrOpt_encode, h2]

theorem unmarshalBox_marshalBox (box : EncryptedBox) :
    unmarshalBox (marshalBox box) = some box := by
  obtain ⟨nv, ct, tg⟩ := box
  have h3 : readBstr (encodeBstr tg) = some (tg, []) := by
    simpa using readBstr_encode tg []
  simp [marshalBox, unmarshalBox, readBstr_encode, h3]

theorem testAEAD_correct (k n m : List Nat) :
    testAEAD.decrypt k (testAEAD.encrypt k n m) = some m := rfl

/-! ## Claim C5 -/

/-- Claim C5 counterexample: the HID report map the device returns is not
34 bytes long — `getHIDReport` has exactly 30 bytes — so the claim's
conjunction (34 bytes long and equal to the listed sequence) is false. -/
theorem c5_hidReport_not_34_bytes : getHIDReport.length ≠ 34 := by decide

/-- Claim C5 (amended): the HID report map is exactly 30 bytes and equals
the canonical sequence 06 D0 F1 09 01 A1 01 09 20 14 25 FF 75 08 95 40 81
02 09 21 14 25 FF 75 08 95 40 91 02 C0; the interface-recipient
GET_DESCRIPTOR(HID_REPORT) path returns exactly it, and the HID descriptor
embedded in the configuration assembly declares its length, 30. -/
theorem c5_hidReport_canonical :
    getHIDReport = [0x06, 0xD0, 0xF1, 0x09, 0x01, 0xA1, 0x01, 0x09, 0x20, 0x14, 0x25, 0xFF,
      0x75, 0x08, 0x95, 0x40, 0x81, 0x02, 0x09, 0x21, 0x14, 0x25, 0xFF, 0x75, 0x08, 0x95,
      0x40, 0x91, 0x02, 0xC0] ∧
    getHIDReport.length = 30 ∧
    (getHIDDescriptor getHIDReport).wReportDescriptorLength = 30 ∧
    ∀ setup : usbSetupPacket, setup.bRequest = 6 →
      (getDescriptorTypeAndIndex setup.wValue).1 = 34 →
      handleInterfaceRequest setup = some (some getHIDReport) := by
  refine ⟨by decide, by decide, by decide, ?_⟩
  intro setup h6 h34
  simp [handleInterfaceRequest, h6, h34]

/-- Claim C5 witness: the amended theorem applied to the SETUP packet of a
GET_DESCRIPTOR(HID_REPORT) interface request (wValue high byte 0x22). -/
theorem c5_hidReport_canonical_witness :
    (⟨129, 6, 8704, 0, 30⟩ : usbSetupPacket).bRequest = 6 ∧
    (getDescriptorTypeAndIndex (8704 : Nat)).1 = 34 ∧
    handleInterfaceRequest ⟨129, 6, 8704, 0, 30⟩ = some (some getHIDReport) :=
  ⟨rfl, by decide, c5_hidReport_canonical.2.2.2 ⟨129, 6, 8704, 0, 30⟩ rfl (by decide)⟩

/-! ## Claim C7 -/

/-- Claim C7: the GET_DESCRIPTOR(CONFIGURATION) response is exactly 41
bytes, starts with 0x09 0x02, carries wTotalLength = 41 in bytes 2-3
little-endian, and is the concatenation configuration(9) ‖ interface(9) ‖
HID(9) ‖ EP1-IN(7) ‖ EP2-OUT(7), with wTotalLength equal to the
concatenated tail length (32) plus the configuration descriptor's own 9
bytes. -/
theorem c7_configuration_descriptor_layout :
    getConfigurationDescriptorResponse.length = 41 ∧
    getConfigurationDescriptorResponse.take 2 = [9, 2] ∧
    getConfigurationDescriptorResponse.getD 2 0 +
      256 * getConfigurationDescriptorResponse.getD 3 0 = 41 ∧
    getConfigurationDescriptorResponse =
      configurationDescriptorBytes (getConfigurationDescriptor 32) ++
      interfaceDescriptorBytes getInterfaceDescriptor ++
      hidDescriptorBytes (getHIDDescriptor getHIDReport) ++
      endpointDescriptorBytes endpointInDescriptor ++
      endpointDescriptorBytes endpointOutDescriptor ∧
    (configurationDescriptorBytes (getConfigurationDescriptor 32)).length = 9 ∧
    (interfaceDescriptorBytes getInterfaceDescriptor).length = 9 ∧
    (hidDescriptorBytes (getHIDDescriptor getHIDReport)).length = 9 ∧
    (∀ d, (endpointDescriptorBytes d).length = 7) ∧
    (getConfigurationDescriptor 32).wTotalLength = 32 + 9 := by
  refine ⟨by decide, by decide, by decide, by decide, by decide, by decide, by decide, ?_,
    by decide⟩
  intro d
  simp [endpointDescriptorBytes, toLE16]

/-! ## Claim C8 -/

/-- Claim C8: two U2F APDUs that differ only in the CLA byte produce
identical `handleU2FMessage` results for every crypto instantiation and
client-port run: the CLA byte is never inspected and no CLA value is
rejected. -/
theorem c8_cla_never_inspected (crypto : CryptoParams) (client : FIDOClient)
    (cla1 cla2 : Nat) (rest : List Nat) :
    handleU2FMessage crypto client (cla1 :: rest) =
      handleU2FMessage crypto client (cla2 :: rest) := by
  rcases rest with _ | ⟨ins, _ | ⟨p1, _ | ⟨p2, tl⟩⟩⟩
  · rfl
  · rfl
  · rfl
  · simp only [handleU2FMessage, decodeU2FMessage]
    cases parseTail tl with
    | none => rfl
    | some p =>
      simp only [Option.map_some']
      by_cases h3 : ins = 3
      · simp [h3]
      · by_cases h1 : ins = 1
        · subst h1
          simp only [if_neg h3, if_pos rfl]
          rfl
        · by_cases h2 : ins = 2
          · subst h2
            simp only [if_neg h3, if_neg h1, if_pos rfl]
            rfl
          · simp [h3, h1, h2]

/-! ## Claim C1 -/

/-- Claim C1 counterexample: the REGISTER APDU `00 01 00 00` has a 0-byte
request payload, yet `handleU2FMessage` does not return SW_WRONG_DATA —
it aborts (the `request[:32]` slice is out of range), modelled as
`none`. -/
theorem c1_short_register_aborts :
    handleU2FMessage testCrypto testClient [0, 1, 0, 0] = none ∧
    (none : Option (List Nat)) ≠ some (toBE16 u2f_SW_WRONG_DATA) :=
  ⟨rfl, by simp⟩

/-- Claim C1 (amended): a REGISTER request whose payload is not exactly 64
bytes makes `handleU2FRegister` abort (slice panic or assertion failure)
rather than return a status word; and no REGISTER request of any length is
ever answered with SW_WRONG_DATA, while 64-byte requests pass the length
checks. -/
theorem c1_register_length_behaviour (crypto : CryptoParams) (client : FIDOClient)
    (header : u2fMessageHeader) (request : List Nat) :
    (request.length ≠ 64 → handleU2FRegister crypto client header request = none) ∧
    handleU2FRegister crypto client header request ≠ some (toBE16 u2f_SW_WRONG_DATA) := by
  constructor
  · intro hne
    simp only [handleU2FRegister]
    by_cases h32 : request.length < 32
    · simp [h32]
    · have hch : (request.take 32).length = 32 := by
        simp only [List.length_take]
        omega
      have hap : ¬ (request.length - 32 = 32) := by omega
      simp [h32, hch, hap]
  · simp only [handleU2FRegister]
    split
    · simp
    · split
      · simp
      · split
        · simp
        · split
          · simp
          · split
            · simp [toBE16, u2f_SW_CONDITIONS_NOT_SATISFIED, u2f_SW_WRONG_DATA]
            · simp [toBE16, u2f_SW_WRONG_DATA]

/-- Claim C1 witness: the amended theorem applied to the empty request,
whose length differs from 64. -/
theorem c1_register_length_behaviour_witness :
    ([] : List Nat).length ≠ 64 ∧
    handleU2FRegister testCrypto testClient ⟨0, 1, 0, 0⟩ [] = none ∧
    handleU2FRegister testCrypto testClient ⟨0, 1, 0, 0⟩ [] ≠ some (toBE16 u2f_SW_WRONG_DATA) := by
  refine ⟨by decide, ?_, ?_⟩
  · exact (c1_register_length_behaviour testCrypto testClient ⟨0, 1, 0, 0⟩ []).1 (by decide)
  · exact (c1_register_length_behaviour testCrypto testClient ⟨0, 1, 0, 0⟩ []).2

/-! ## Claim C2 -/

/-- Claim C2: for every KeyHandle whose private-key field is a byte string
of length at most 200 and whose application field has 32 bytes, opening
the sealed-and-CBOR-wrapped encoding under the same sealing key recovers
the handle exactly, for every AEAD satisfying the decrypt-of-encrypt
law. -/
theorem c2_seal_open_roundtrip (crypto : CryptoParams) (client : FIDOClient) (h : KeyHandle)
    (hdec : ∀ k n m, crypto.aead.decrypt k (crypto.aead.encrypt k n m) = some m)
    (pk : List Nat) (hpk : h.privateKey = some pk) (hpklen : pk.length ≤ 200)
    (app : List Nat) (happ : h.applicationID = some app) (happlen : app.length = 32) :
    openKeyHandle crypto client (sealKeyHandle crypto client h) = some h := by
  simp only [sealKeyHandle, openKeyHandle, unmarshalBox_marshalBox, hdec,
    unmarshalKeyHandle_marshalKeyHandle]

/-- Claim C2 witness: the roundtrip evaluated on a concrete handle with a
40-byte private key and a 32-byte application ID under the concrete
AEAD. -/
theorem c2_seal_open_roundtrip_witness :
    (∀ k n m, testCrypto.aead.decrypt k (testCrypto.aead.encrypt k n m) = some m) ∧
    (List.replicate 40 7 : List Nat).length ≤ 200 ∧
    (List.replicate 32 23 : List Nat).length = 32 ∧
    openKeyHandle testCrypto testClient (sealKeyHandle testCrypto testClient
      ⟨some (List.replicate 40 7), some (List.replicate 32 23)⟩) =
      some ⟨some (List.replicate 40 7), some (List.replicate 32 23)⟩ :=
  ⟨fun _ _ _ => rfl, by decide, by decide,
    c2_seal_open_roundtrip testCrypto testClient ⟨some (List.replicate 40 7), some (List.replicate 32 23)⟩
      (fun _ _ _ => rfl) (List.replicate 40 7) rfl (by decide)
      (List.replicate 32 23) rfl (by decide)⟩


/-! ## Authenticate request layout -/

theorem auth_request_layout (challenge application handleBytes : List Nat)
    (hch : challenge.length = 32) (hap : application.length = 32) :
    (challenge ++ (application ++ handleBytes.length :: handleBytes)).length =
      65 + handleBytes.length ∧
    (challenge ++ (application ++ handleBytes.length :: handleBytes)).take 32 = challenge ∧
    ((challenge ++ (application ++ handleBytes.length :: handleBytes)).drop 32).take 32 =
      application ∧
    (challenge ++ (application ++ handleBytes.length :: handleBytes)).drop 64 =
      handleBytes.length :: handleBytes ∧
    (challenge ++ (application ++ handleBytes.length :: handleBytes)).drop 65 = handleBytes := by
  have hd32 : (challenge ++ (application ++ handleBytes.length :: handleBytes)).drop 32 =
      application ++ handleBytes.length :: handleBytes := List.drop_left' hch
  have hd64 : (challenge ++ (application ++ handleBytes.length :: handleBytes)).drop 64 =
      handleBytes.length :: handleBytes := by
    rw [show (64 : Nat) = 32 + 32 from rfl, ← List.drop_drop, hd32, List.drop_left' hap]
  have hd65 : (challenge ++ (application ++ handleBytes.length :: handleBytes)).drop 65 =
      handleBytes := by
    rw [show (65 : Nat) = 64 + 1 from rfl, ← List.drop_drop, hd64]
    simp
  refine ⟨?_, List.take_left' hch, ?_, hd64, hd65⟩
  · simp only [List.length_append, List.length_cons, hch, hap]
    omega
  · rw [hd32]
    exact List.take_left' hap

/-- Reduction of `handleU2FAuthenticate` on a well-formed request
`challenge[32] ‖ application[32] ‖ len ‖ handle_bytes[len]` to its
post-decode branching. -/
theorem handleU2FAuthenticate_layout (crypto : CryptoParams) (client : FIDOClient)
    (header : u2fMessageHeader) (challenge application handleBytes : List Nat)
    (hch : challenge.length = 32) (hap : application.length = 32) :
    handleU2FAuthenticate crypto client header
        (challenge ++ (application ++ handleBytes.length :: handleBytes)) =
      (match openKeyHandle crypto client handleBytes with
      | none => some (toBE16 u2f_SW_WRONG_DATA)
      | some keyHandle =>
        if keyHandle.privateKey = none ∨ keyHandle.applicationID.getD [] ≠ application then
          some (toBE16 u2f_SW_WRONG_DATA)
        else
          match crypto.parseECPrivateKey (keyHandle.privateKey.getD []) with
          | none => none
          | some privateKey =>
            if header.param1 = 7 then some (toBE16 u2f_SW_CONDITIONS_NOT_SATISFIED)
            else if header.param1 = 3 ∨ header.param1 = 8 then
              if header.param1 = 3 ∧ client.approveU2FAuthentication keyHandle = false then
                some (toBE16 u2f_SW_CONDITIONS_NOT_SATISFIED)
              else
                some (1 :: (toBE32 client.newAuthenticationCounterId ++
                  crypto.sign privateKey (application ++ 1 ::
                    (toBE32 client.newAuthenticationCounterId ++ challenge)) ++
                  toBE16 u2f_SW_NO_ERROR))
            else some (toBE16 u2f_SW_WRONG_LENGTH)) := by
  obtain ⟨hlen, ht32, hd32t, hd64, hd65⟩ :=
    auth_request_layout challenge application handleBytes hch hap
  have h65 : ¬ (challenge ++ (application ++ handleBytes.length :: handleBytes)).length < 65 := by
    rw [hlen]; omega
  simp only [handleU2FAuthenticate]
  rw [if_neg h65, hd64, hd65, List.headD_cons, ht32, hd32t,
    if_neg (lt_irrefl handleBytes.length), List.take_length]

/-! ## Claim C3 -/

/-- Claim C3: for an AUTHENTICATE APDU with control byte 0x03 (approval
granted) or 0x08, over a key handle that opens to the request's
application ID and a parsable private key, the response is exactly
0x01 ‖ counter_be32 ‖ sign(privateKey, application ‖ 0x01 ‖ counter_be32 ‖
challenge) ‖ 0x9000, where counter_be32 is the 4-byte big-endian counter
obtained from the client port — the same bytes in the signed payload and
in the response. -/
theorem c3_authenticate_sign_response (crypto : CryptoParams) (client : FIDOClient)
    (cla p1 p2 : Nat) (challenge application handleBytes pkBytes : List Nat)
    (kh : KeyHandle) (privateKey : Nat)
    (hch : challenge.length = 32) (hap : application.length = 32)
    (hhb : handleBytes.length ≤ 255)
    (hopen : openKeyHandle crypto client handleBytes = some kh)
    (hpk : kh.privateKey = some pkBytes)
    (hka : kh.applicationID = some application)
    (hparse : crypto.parseECPrivateKey pkBytes = some privateKey)
    (hctrl : (p1 = 3 ∧ client.approveU2FAuthentication kh = true) ∨ p1 = 8) :
    handleU2FAuthenticate crypto client ⟨cla, 2, p1, p2⟩
        (challenge ++ (application ++ handleBytes.length :: handleBytes)) =
      some (1 :: (toBE32 client.newAuthenticationCounterId ++
        crypto.sign privateKey (application ++ 1 ::
          (toBE32 client.newAuthenticationCounterId ++ challenge)) ++
        toBE16 u2f_SW_NO_ERROR)) ∧
    (toBE32 client.newAuthenticationCounterId).length = 4 := by
  rw [handleU2FAuthenticate_layout crypto client ⟨cla, 2, p1, p2⟩ challenge application
    handleBytes hch hap, hopen]
  refine ⟨?_, by simp [toBE32]⟩
  rcases hctrl with ⟨h3, happr⟩ | h8
  · subst h3
    simp [hpk, hka, hparse, happr]
  · subst h8
    simp [hpk, hka, hparse]

/-- Claim C3 witness: the theorem evaluated with control byte 0x08 on a
concrete sealed handle under the concrete AEAD and client run. -/
theorem c3_authenticate_sign_response_witness :
    (List.replicate 32 66 : List Nat).length = 32 ∧
    (List.replicate 32 23 : List Nat).length = 32 ∧
    (sealKeyHandle testCrypto testClient ⟨some [7], some (List.replicate 32 23)⟩).length ≤ 255 ∧
    openKeyHandle testCrypto testClient
      (sealKeyHandle testCrypto testClient ⟨some [7], some (List.replicate 32 23)⟩) =
      some ⟨some [7], some (List.replicate 32 23)⟩ ∧
    testCrypto.parseECPrivateKey [7] = some 7 ∧
    handleU2FAuthenticate testCrypto testClient ⟨0, 2, 8, 0⟩
        (List.replicate 32 66 ++ (List.replicate 32 23 ++
          (sealKeyHandle testCrypto testClient ⟨some [7], some (List.replicate 32 23)⟩).length ::
          sealKeyHandle testCrypto testClient ⟨some [7], some (List.replicate 32 23)⟩)) =
      some (1 :: (toBE32 testClient.newAuthenticationCounterId ++
        testCrypto.sign 7 (List.replicate 32 23 ++ 1 ::
          (toBE32 testClient.newAuthenticationCounterId ++ List.replicate 32 66)) ++
        toBE16 u2f_SW_NO_ERROR)) := by
  refine ⟨by decide, by decide, by decide, by decide, rfl, ?_⟩
  exact (c3_authenticate_sign_response testCrypto testClient 0 8 0
    (List.replicate 32 66) (List.replicate 32 23)
    (sealKeyHandle testCrypto testClient ⟨some [7], some (List.replicate 32 23)⟩)
    [7] ⟨some [7], some (List.replicate 32 23)⟩ 7
    (by decide) (by decide) (by decide) (by decide) rfl rfl rfl (Or.inr rfl)).1

/-! ## Claim C6 -/

theorem auth_wrong_data_core (crypto : CryptoParams) (client : FIDOClient)
    (header : u2fMessageHeader) (challenge application handleBytes : List Nat)
    (hch : challenge.length = 32) (hap : application.length = 32)
    (hfail : openKeyHandle crypto client handleBytes = none ∨
      ∃ kh, openKeyHandle crypto client handleBytes = some kh ∧
        kh.applicationID.getD [] ≠ application) :
    handleU2FAuthenticate crypto client header
        (challenge ++ (application ++ handleBytes.length :: handleBytes)) =
      some (toBE16 u2f_SW_WRONG_DATA) := by
  rw [handleU2FAuthenticate_layout crypto client header challenge application handleBytes hch hap]
  rcases hfail with hnone | ⟨kh, hsome, hmis⟩
  · rw [hnone]
  · rw [hsome]
    simp [hmis]

/-- Claim C6: if the presented key handle fails to open (CBOR or
authenticated-decryption failure) or opens to an application ID different
from the request's, the AUTHENTICATE response is exactly SW_WRONG_DATA —
and it stays exactly SW_WRONG_DATA for every counter value and every
signing function, so no counter is consumed and no signature is
produced. -/
theorem c6_authenticate_invalid_handle (crypto : CryptoParams) (client : FIDOClient)
    (header : u2fMessageHeader) (challenge application handleBytes : List Nat)
    (hch : challenge.length = 32) (hap : application.length = 32)
    (hfail : openKeyHandle crypto client handleBytes = none ∨
      ∃ kh, openKeyHandle crypto client handleBytes = some kh ∧
        kh.applicationID.getD [] ≠ application) :
    handleU2FAuthenticate crypto client header
        (challenge ++ (application ++ handleBytes.length :: handleBytes)) =
      some (toBE16 u2f_SW_WRONG_DATA) ∧
    ∀ counterVal signFn,
      handleU2FAuthenticate { crypto with sign := signFn }
          { client with newAuthenticationCounterId := counterVal } header
          (challenge ++ (application ++ handleBytes.length :: handleBytes)) =
        some (toBE16 u2f_SW_WRONG_DATA) := by
  refine ⟨auth_wrong_data_core crypto client header challenge application handleBytes
    hch hap hfail, ?_⟩
  intro counterVal signFn
  exact auth_wrong_data_core _ _ header challenge application handleBytes hch hap hfail

/-- Claim C6 witness: an empty key-handle field fails CBOR decoding, and
the response is SW_WRONG_DATA. -/
theorem c6_authenticate_invalid_handle_witness :
    (List.replicate 32 66 : List Nat).length = 32 ∧
    (List.replicate 32 23 : List Nat).length = 32 ∧
    openKeyHandle testCrypto testClient [] = none ∧
    handleU2FAuthenticate testCrypto testClient ⟨0, 2, 3, 0⟩
        (List.replicate 32 66 ++ (List.replicate 32 23 ++
          ([] : List Nat).length :: ([] : List Nat))) =
      some (toBE16 u2f_SW_WRONG_DATA) := by
  refine ⟨by decide, by decide, rfl, ?_⟩
  exact (c6_authenticate_invalid_handle testCrypto testClient ⟨0, 2, 3, 0⟩
    (List.replicate 32 66) (List.replicate 32 23) [] (by decide) (by decide) (Or.inl rfl)).1

/-! ## Claim C10 -/

/-- Claim C10: if the key handle opens successfully but the recovered
KeyHandle has a nil private-key field, the AUTHENTICATE response is
SW_WRONG_DATA, for every header (hence every control byte) and even when
the recovered application ID equals the request's. -/
theorem c10_authenticate_nil_private_key (crypto : CryptoParams) (client : FIDOClient)
    (header : u2fMessageHeader) (challenge application handleBytes : List Nat)
    (kh : KeyHandle)
    (hch : challenge.length = 32) (hap : application.length = 32)
    (hopen : openKeyHandle crypto client handleBytes = some kh)
    (hpk : kh.privateKey = none) :
    handleU2FAuthenticate crypto client header
        (challenge ++ (application ++ handleBytes.length :: handleBytes)) =
      some (toBE16 u2f_SW_WRONG_DATA) := by
  rw [handleU2FAuthenticate_layout crypto client header challenge application handleBytes
    hch hap, hopen]
  simp [hpk]

/-- Claim C10 witness: a sealed handle carrying a nil private key and the
request's own application ID still answers SW_WRONG_DATA, here with
control byte 0x03. -/
theorem c10_authenticate_nil_private_key_witness :
    (List.replicate 32 66 : List Nat).length = 32 ∧
    (List.replicate 32 23 : List Nat).length = 32 ∧
    openKeyHandle testCrypto testClient
      (sealKeyHandle testCrypto testClient ⟨none, some (List.replicate 32 23)⟩) =
      some ⟨none, some (List.replicate 32 23)⟩ ∧
    handleU2FAuthenticate testCrypto testClient ⟨0, 2, 3, 0⟩
        (List.replicate 32 66 ++ (List.replicate 32 23 ++
          (sealKeyHandle testCrypto testClient ⟨none, some (List.replicate 32 23)⟩).length ::
          sealKeyHandle testCrypto testClient ⟨none, some (List.replicate 32 23)⟩)) =
      some (toBE16 u2f_SW_WRONG_DATA) := by
  refine ⟨by decide, by decide, by decide, ?_⟩
  exact c10_authenticate_nil_private_key testCrypto testClient ⟨0, 2, 3, 0⟩
    (List.replicate 32 66) (List.replicate 32 23)
    (sealKeyHandle testCrypto testClient ⟨none, some (List.replicate 32 23)⟩)
    ⟨none, some (List.replicate 32 23)⟩ (by decide) (by decide) (by decide) rfl

/-! ## Claim C4 -/

/-- Claim C4: an approved 64-byte REGISTER request is answered with
0x05 ‖ public_key(65, leading 0x04) ‖ handle_len(1) ‖ handle_bytes ‖
attestation_cert ‖ sign(newPrivateKey, 0x00 ‖ application ‖ challenge ‖
handle_bytes ‖ public_key) ‖ 0x9000. -/
theorem c4_register_response_layout (crypto : CryptoParams) (client : FIDOClient)
    (header : u2fMessageHeader) (request encodedPrivateKey : List Nat)
    (hlen : request.length = 64)
    (hmar : crypto.marshalECPrivateKey client.newPrivateKey = some encodedPrivateKey)
    (happr : client.approveU2FRegistration
      ⟨some encodedPrivateKey, some (request.drop 32)⟩ = true)
    (hhb : (sealKeyHandle crypto client
      ⟨some encodedPrivateKey, some (request.drop 32)⟩).length ≤ 255) :
    handleU2FRegister crypto client header request =
      some (5 :: (marshalP256PublicKey client ++
        (sealKeyHandle crypto client ⟨some encodedPrivateKey, some (request.drop 32)⟩).length ::
        (sealKeyHandle crypto client ⟨some encodedPrivateKey, some (request.drop 32)⟩ ++
          client.createAttestationCertificate client.newPrivateKey ++
          crypto.sign client.newPrivateKey
            (0 :: (request.drop 32 ++ request.take 32 ++
              sealKeyHandle crypto client ⟨some encodedPrivateKey, some (request.drop 32)⟩ ++
              marshalP256PublicKey client)) ++
          toBE16 u2f_SW_NO_ERROR))) ∧
    (marshalP256PublicKey client).length = 65 ∧
    (marshalP256PublicKey client).headD 0 = 4 := by
  have h32 : ¬ request.length < 32 := by omega
  have hch : (request.take 32).length = 32 := by
    rw [List.length_take, hlen]
    decide
  have hap : (request.drop 32).length = 32 := by
    rw [List.length_drop, hlen]
  have hmod : (sealKeyHandle crypto client
      ⟨some encodedPrivateKey, some (request.drop 32)⟩).length % 256 =
      (sealKeyHandle crypto client ⟨some encodedPrivateKey, some (request.drop 32)⟩).length :=
    Nat.mod_eq_of_lt (by omega)
  refine ⟨?_, ?_, rfl⟩
  · simp [handleU2FRegister, h32, hch, hap, hmar, happr, hmod]
  · simp [marshalP256PublicKey, beBytes_length]

/-- Claim C4 witness: the register layout theorem applied to a concrete
approved 64-byte request under the concrete crypto and client. -/
theorem c4_register_response_layout_witness :
    (List.replicate 32 66 ++ List.replicate 32 23 : List Nat).length = 64 ∧
    testCrypto.marshalECPrivateKey testClient.newPrivateKey = some [7] ∧
    testClient.approveU2FRegistration
      ⟨some [7], some ((List.replicate 32 66 ++ List.replicate 32 23).drop 32)⟩ = true ∧
    (sealKeyHandle testCrypto testClient
      ⟨some [7], some ((List.replicate 32 66 ++ List.replicate 32 23).drop 32)⟩).length ≤ 255 ∧
    (marshalP256PublicKey testClient).length = 65 ∧
    (marshalP256PublicKey testClient).headD 0 = 4 := by
  refine ⟨by decide, rfl, rfl, by decide, ?_, ?_⟩
  · exact (c4_register_response_layout testCrypto testClient ⟨0, 1, 0, 0⟩
      (List.replicate 32 66 ++ List.replicate 32 23) [7]
      (by decide) rfl rfl (by decide)).2.1
  · exact (c4_register_response_layout testCrypto testClient ⟨0, 1, 0, 0⟩
      (List.replicate 32 66 ++ List.replicate 32 23) [7]
      (by decide) rfl rfl (by decide)).2.2
